import Mathlib

/-!
Verification of the time-windowed log aggregation engine of
src/src/utils/exporter.py (Sonatype Nexus usage monitoring).

The Python module is shallowly embedded: lines are lists of characters,
datetimes are seconds counts (an integer; the `datetime` constructor
validates its fields, and comparison of valid datetimes coincides with
comparison of their second counts), files are lists of decoded lines, the
log directory is a map from day ordinal and suffix to optional file
content, and every fallible operation returns `Except PErr`.
-/

set_option maxRecDepth 4000

deriving instance DecidableEq for Except

namespace NexusExporter

/-- Python exceptions that the exporter code can raise. -/
inductive PErr where
  | keyError
  | valueError
  | indexError
  deriving DecidableEq, Repr

/-- ASCII whitespace as recognized by Python's str.split() / str.strip(). -/
def pIsSpace (c : Char) : Bool :=
  c = ' ' || c = '\t' || c = '\n' || c = '\r' || c = '\x0b' || c = '\x0c'

/-- A decimal digit, the regex class \d (ASCII). -/
def pIsDigit (c : Char) : Bool := '0' ≤ c && c ≤ '9'

/-- The regex class \w (ASCII): letters, digits, underscore. -/
def isWordChar (c : Char) : Bool := c.isAlphanum || c = '_'

/-- Value of a string of decimal digits, as int() reads digits. -/
def digitsToNat (ds : List Char) : Nat :=
  ds.foldl (fun n c => 10 * n + (c.toNat - 48)) 0

/-- Helper for `splitWs`: accumulates the current (reversed) token. -/
def splitWsAux : List Char → List Char → List (List Char)
  | [], acc => if acc.isEmpty then [] else [acc.reverse]
  | c :: cs, acc =>
    if pIsSpace c then
      if acc.isEmpty then splitWsAux cs [] else acc.reverse :: splitWsAux cs []
    else splitWsAux cs (c :: acc)

/-- Python str.split() with no argument: split on whitespace runs, no
empty tokens. -/
def splitWs (cs : List Char) : List (List Char) := splitWsAux cs []

/-- Helper for `splitOnChar`. -/
def splitOnAux (sep : Char) : List Char → List Char → List (List Char)
  | [], acc => [acc.reverse]
  | c :: cs, acc =>
    if c = sep then acc.reverse :: splitOnAux sep cs []
    else splitOnAux sep cs (c :: acc)

/-- Python str.split(sep) for a one-character separator: keeps empty pieces. -/
def splitOnChar (sep : Char) (cs : List Char) : List (List Char) :=
  splitOnAux sep cs []

/-- Match of LOG_PATTERN at the head of the text:
the regex \x5b(\d\x7b2\x7d)/(\w\x7b3\x7d)/(\d\x7b4\x7d):(\d\x7b2\x7d):(\d\x7b2\x7d):(\d\x7b2\x7d)
anchored at position 0. Returns the six groups (day, month, year, hour,
minute, second) as raw character lists. -/
def matchTs : List Char →
    Option (List Char × List Char × List Char × List Char × List Char × List Char)
  | '[' :: d1 :: d2 :: '/' :: w1 :: w2 :: w3 :: '/' :: y1 :: y2 :: y3 :: y4 ::
      ':' :: h1 :: h2 :: ':' :: n1 :: n2 :: ':' :: s1 :: s2 :: _ =>
    if pIsDigit d1 && pIsDigit d2 && isWordChar w1 && isWordChar w2 && isWordChar w3 &&
        pIsDigit y1 && pIsDigit y2 && pIsDigit y3 && pIsDigit y4 &&
        pIsDigit h1 && pIsDigit h2 && pIsDigit n1 && pIsDigit n2 &&
        pIsDigit s1 && pIsDigit s2 then
      some ([d1, d2], [w1, w2, w3], [y1, y2, y3, y4], [h1, h2], [n1, n2], [s1, s2])
    else none
  | _ => none

/-- LOG_PATTERN.search: leftmost match of the timestamp pattern in the line. -/
def searchTs : List Char →
    Option (List Char × List Char × List Char × List Char × List Char × List Char)
  | [] => none
  | c :: cs =>
    match matchTs (c :: cs) with
    | some g => some g
    | none => searchTs cs

/-- The MONTHS dict of exporter.py: three-letter month abbreviation to
month number; lookup of any other key is a KeyError (`none` here). -/
def MONTHS : List Char → Option Nat
  | ['J', 'a', 'n'] => some 1
  | ['F', 'e', 'b'] => some 2
  | ['M', 'a', 'r'] => some 3
  | ['A', 'p', 'r'] => some 4
  | ['M', 'a', 'y'] => some 5
  | ['J', 'u', 'n'] => some 6
  | ['J', 'u', 'l'] => some 7
  | ['A', 'u', 'g'] => some 8
  | ['S', 'e', 'p'] => some 9
  | ['O', 'c', 't'] => some 10
  | ['N', 'o', 'v'] => some 11
  | ['D', 'e', 'c'] => some 12
  | _ => none

/-- Gregorian leap year, as datetime uses. -/
def isLeap (y : Nat) : Bool := y % 4 = 0 && (y % 100 ≠ 0 || y % 400 = 0)

/-- Days in a month of the proleptic Gregorian calendar. -/
def daysInMonth (y m : Nat) : Nat :=
  if m = 2 then (if isLeap y then 29 else 28)
  else if m = 4 ∨ m = 6 ∨ m = 9 ∨ m = 11 then 30
  else 31

/-- Day ordinal of a civil date, with 1970-01-01 as day 0 (the standard
days-from-civil computation for the proleptic Gregorian calendar). -/
def daysFromCivil (y m d : Nat) : Int :=
  let yy : Int := if m ≤ 2 then (y : Int) - 1 else (y : Int)
  let era : Int := yy / 400
  let yoe : Int := yy - era * 400
  let mp : Int := if m ≤ 2 then (m : Int) + 9 else (m : Int) - 3
  let doy : Int := (153 * mp + 2) / 5 + (d : Int) - 1
  let doe : Int := yoe * 365 + yoe / 4 - yoe / 100 + doy
  era * 146097 + doe - 719468

/-- The datetime(...) constructor: validates every field (ValueError on a
bad date or time, here `none`) and otherwise denotes the unique point on
the timeline, encoded as seconds since 1970-01-01 00:00:00. Comparison of
two valid datetimes is comparison of these encodings. -/
def mkDatetime (y mo d h mi s : Nat) : Option Int :=
  if 1 ≤ y ∧ y ≤ 9999 ∧ 1 ≤ mo ∧ mo ≤ 12 ∧ 1 ≤ d ∧ d ≤ daysInMonth y mo ∧
      h ≤ 23 ∧ mi ≤ 59 ∧ s ≤ 59 then
    some (daysFromCivil y mo d * 86400 + (h : Int) * 3600 + (mi : Int) * 60 + (s : Int))
  else none

/-- parse_line_time of exporter.py: search the line for the timestamp
pattern; no match returns None (`ok none`); on a match, MONTHS[mon] can
raise KeyError and datetime(...) can raise ValueError; otherwise the
datetime is returned. -/
def parse_line_time (line : List Char) : Except PErr (Option Int) :=
  match searchTs line with
  | none => .ok none
  | some (d, mon, y, hh, mm, ss) =>
    match MONTHS mon with
    | none => .error .keyError
    | some m =>
      match mkDatetime (digitsToNat y) m (digitsToNat d)
          (digitsToNat hh) (digitsToNat mm) (digitsToNat ss) with
      | none => .error .valueError
      | some t => .ok (some t)

/-- The filter condition of iter_log_file: `ts and ts >= cutoff` (a
datetime is always truthy, so this is: present and at or after cutoff). -/
def keepTs (cutoff : Int) : Option Int → Bool
  | some t => cutoff ≤ t
  | none => false

/-- The filter condition as a function of the raw line (an erroring parse
never reaches the comparison). -/
def keepLine (cutoff : Int) (l : List Char) : Bool :=
  match parse_line_time l with
  | .ok ts => keepTs cutoff ts
  | .error _ => false

/-- iter_log_file of exporter.py on the decoded lines of one file: yields
each line with timestamp present and >= cutoff; a parse error escapes the
generator. -/
def iter_log_file : List (List Char) → Int → Except PErr (List (List Char))
  | [], _ => .ok []
  | l :: ls, cutoff =>
    match parse_line_time l with
    | .error e => .error e
    | .ok ts =>
      match iter_log_file ls cutoff with
      | .error e => .error e
      | .ok rest => .ok (if keepTs cutoff ts then l :: rest else rest)

/-- A collections.Counter over string keys: an insertion-ordered
association list of keys and counts. -/
abbrev Counter := List (List Char × Nat)

/-- Counter[k] += 1: bump the key's count, appending the key with count 1
when it is new. -/
def cInc (c : Counter) (k : List Char) : Counter :=
  match c with
  | [] => [(k, 1)]
  | (k2, n) :: rest => if k2 = k then (k2, n + 1) :: rest else (k2, n) :: cInc rest k

/-- sum(counter.values()). -/
def cSum (c : Counter) : Nat := (c.map Prod.snd).sum

/-- counter[k] as read access: 0 for a missing key. -/
def cGet (c : Counter) (k : List Char) : Nat :=
  match c with
  | [] => 0
  | (k2, n) :: rest => if k2 = k then n else cGet rest k

/-- str.startswith for our model of strings. -/
def startsWith : List Char → List Char → Bool
  | [], _ => true
  | _ :: _, [] => false
  | p :: ps, c :: cs => p = c && startsWith ps cs

/-- Python's `needle in hay` substring test. -/
def containsSub (needle : List Char) : List Char → Bool
  | [] => needle.isEmpty
  | c :: cs => startsWith needle (c :: cs) || containsSub needle cs

/-- The path prefix of the repository grouping. -/
def repoPre : List Char := "/repository/".data

/-- The path prefix of the service grouping. -/
def svcPre : List Char := "/service/".data

/-- The path reduction repo = "/" + "/".join(path.split("/")[1:3]). -/
def groupPath (path : List Char) : List Char :=
  '/' :: List.intercalate ['/'] (((splitOnChar '/' path).drop 1).take 2)

/-- The try-block of collect_metrics: extract the quoted request
line.split(34)[1], unpack method, path, version, then count the endpoint
and the repository/service groupings; every failure (missing quoted
segment, wrong token count) is swallowed, leaving the three counters
unchanged. Returns (by_endpoint, by_repo, by_service). -/
def tryEndpoint (ep rp sv : Counter) (line : List Char) : Counter × Counter × Counter :=
  match (splitOnChar '"' line)[1]? with
  | none => (ep, rp, sv)
  | some req =>
    match splitWs req with
    | [_method, path, _ver] =>
      let ep2 := cInc ep path
      let rp2 := if startsWith repoPre path then cInc rp (groupPath path) else rp
      let sv2 := if startsWith svcPre path then cInc sv (groupPath path) else sv
      (ep2, rp2, sv2)
    | _ => (ep, rp, sv)

/-- The custom-flag loop of collect_metrics: for every flag, count it when
it occurs as a literal substring of the line. -/
def applyFlags (flags : List (List Char)) (cf : Counter) (line : List Char) : Counter :=
  flags.foldl (fun acc f => if containsSub f line then cInc acc f else acc) cf

/-- Hour-of-day of a datetime encoded as seconds (ts.hour). -/
def hourOf (t : Int) : Nat := (t % 86400).toNat / 3600

/-- Two-digit decimal rendering, the format 02d applied to an hour. -/
def fmt2 (n : Nat) : List Char :=
  [Char.ofNat (48 + n / 10), Char.ofNat (48 + n % 10)]

/-- The aggregation counters of collect_metrics. -/
structure AggState where
  total : Nat
  by_user : Counter
  by_endpoint : Counter
  by_repo : Counter
  by_service : Counter
  by_ip : Counter
  by_hour : Counter
  by_status : Counter
  custom_flags : Counter
  deriving DecidableEq, Repr

/-- The fresh counters at the start of a collect_metrics call. -/
def initState : AggState :=
  { total := 0, by_user := [], by_endpoint := [], by_repo := [], by_service := [],
    by_ip := [], by_hour := [], by_status := [], custom_flags := [] }

/-- The per-line body of collect_metrics (the same statements appear once
for archive files and once for the live log). total is incremented, then
ip = parts[0] and user = parts[2] are taken positionally (IndexError when
the line splits into fewer than 3 tokens), status = parts[8] when more
than 8 tokens exist else the empty string, the three fixed-position
counters are bumped, the quoted request is handled by the try-block, the
hour counter is bumped when parse_line_time returns a value (the parse is
re-run on the line and can raise), and the flags are tallied. -/
def processLine (flags : List (List Char)) (st : AggState) (line : List Char) :
    Except PErr AggState :=
  match (splitWs line)[0]? with
  | none => .error .indexError
  | some ip =>
    match (splitWs line)[2]? with
    | none => .error .indexError
    | some user =>
      match parse_line_time line with
      | .error e => .error e
      | .ok ts =>
        .ok { total := st.total + 1,
              by_user := cInc st.by_user user,
              by_endpoint := (tryEndpoint st.by_endpoint st.by_repo st.by_service line).1,
              by_repo := (tryEndpoint st.by_endpoint st.by_repo st.by_service line).2.1,
              by_service := (tryEndpoint st.by_endpoint st.by_repo st.by_service line).2.2,
              by_ip := cInc st.by_ip ip,
              by_hour := match ts with
                | some t => cInc st.by_hour (fmt2 (hourOf t))
                | none => st.by_hour,
              by_status := cInc st.by_status
                (match (splitWs line)[8]? with | some s => s | none => []),
              custom_flags := applyFlags flags st.custom_flags line }

/-- One file's scan loop: the iter_log_file generator interleaved with the
per-line body; the first raised exception aborts the aggregation. -/
def scanLines (flags : List (List Char)) (cutoff : Int) :
    AggState → List (List Char) → Except PErr AggState
  | st, [] => .ok st
  | st, l :: ls =>
    match parse_line_time l with
    | .error e => .error e
    | .ok ts =>
      if keepTs cutoff ts then
        match processLine flags st l with
        | .error e => .error e
        | .ok st2 => scanLines flags cutoff st2 ls
      else scanLines flags cutoff st ls

/-- Scan one candidate file: a missing file contributes nothing. -/
def scanFile (flags : List (List Char)) (cutoff : Int) (st : AggState) :
    Option (List (List Char)) → Except PErr AggState
  | none => .ok st
  | some ls => scanLines flags cutoff st ls

/-- The log directory: for each day ordinal the optional content of
request-date.log.gz and request-date.log, plus the optional live
request.log. -/
structure LogDir where
  gz : Int → Option (List (List Char))
  log : Int → Option (List (List Char))
  live : Option (List (List Char))

/-- One date of the archive loop: the .log.gz candidate is scanned before
the .log candidate (decompression is transparent in the model: a file is
its decoded lines). -/
def scanDate (flags : List (List Char)) (cutoff : Int) (dir : LogDir)
    (st : AggState) (d : Int) : Except PErr AggState :=
  match scanFile flags cutoff st (dir.gz d) with
  | .error e => .error e
  | .ok st1 => scanFile flags cutoff st1 (dir.log d)

/-- The dates scanned: every day ordinal from lo through hi inclusive,
ascending (the sorted set of dates from cutoff.date() to now.date()). -/
def dateRange (lo hi : Int) : List Int :=
  (List.range (hi - lo + 1).toNat).map (fun i : Nat => lo + (i : Int))

/-- Loading /opt/scripts/flags.txt: absent file gives no flags, otherwise
each line is stripped and blank lines are dropped. -/
def pyStrip (s : List Char) : List Char :=
  ((s.dropWhile pIsSpace).reverse.dropWhile pIsSpace).reverse

/-- The flag list of one aggregation run. -/
def loadFlags : Option (List (List Char)) → List (List Char)
  | none => []
  | some ls => (ls.map pyStrip).filter (fun l => ¬l.isEmpty)

/-- collect_metrics of exporter.py: cutoff = now - window_hours, the dates
from cutoff.date() through now.date() are scanned in ascending order (for
each date the .log.gz then the .log archive), then the live log, starting
from fresh counters. The clock and the directory content are explicit
arguments (the code reads datetime.now() and the filesystem). -/
def collect_metrics (now : Int) (dir : LogDir) (flagFile : Option (List (List Char)))
    (window_hours : Nat) : Except PErr AggState :=
  match List.foldlM
      (scanDate (loadFlags flagFile) (now - (window_hours : Int) * 3600) dir)
      initState
      (dateRange ((now - (window_hours : Int) * 3600) / 86400) (now / 86400)) with
  | .error e => .error e
  | .ok st => scanFile (loadFlags flagFile) (now - (window_hours : Int) * 3600) st dir.live

/-- window.rstrip of the single character h: removes every trailing
lowercase h (and only lowercase). -/
def pyRstripH (s : List Char) : List Char :=
  (s.reverse.dropWhile (fun c => c = 'h')).reverse

/-- int() applied to the remaining text: succeeds exactly on (possibly
whitespace-surrounded) nonempty digit strings in our inputs, anything else
is a ValueError. -/
def pyIntNat (s : List Char) : Option Nat :=
  let t := pyStrip s
  if ¬t.isEmpty ∧ t.all pIsDigit then some (digitsToNat t) else none

/-- hours = int(window.rstrip of h) as export_metrics computes it. -/
def parseWindow (window : List Char) : Except PErr Nat :=
  match pyIntNat (pyRstripH window) with
  | some n => .ok n
  | none => .error .valueError

/-- The comparison Counter.most_common sorts by: count descending (the
sort is stable, so equal counts keep insertion order). -/
def cntGE (a b : List Char × Nat) : Prop := b.2 ≤ a.2

instance : DecidableRel cntGE := fun a b => inferInstanceAs (Decidable (b.2 ≤ a.2))

instance : IsTotal (List Char × Nat) cntGE := ⟨fun a b => le_total b.2 a.2⟩

instance : IsTrans (List Char × Nat) cntGE := ⟨fun _ _ _ h1 h2 => le_trans h2 h1⟩

/-- Counter.most_common(n): the n highest-count entries, stably sorted by
count descending. -/
def mostCommon (n : Nat) (c : Counter) : List (List Char × Nat) :=
  (List.insertionSort cntGE c).take n

/-- The data export_metrics hands to the Prometheus gauges: the requested
window's counters (the endpoint breakdown truncated to most_common(50),
every other breakdown in full) plus the unconditional last-24h total. -/
structure ExportData where
  window_total : Nat
  total_last_24h : Nat
  by_user : Counter
  endpoint_top : List (List Char × Nat)
  by_repo : Counter
  by_service : Counter
  by_ip : Counter
  by_hour : Counter
  by_status : Counter
  custom_flags : Counter
  deriving DecidableEq, Repr

/-- export_metrics of exporter.py: parse the window, collect the requested
window, then unconditionally collect the fixed 24h window for the baseline
gauge, and assemble the metric data. -/
def export_metrics (now : Int) (dir : LogDir) (flagFile : Option (List (List Char)))
    (window : List Char) : Except PErr ExportData :=
  match parseWindow window with
  | .error e => .error e
  | .ok hours =>
    match collect_metrics now dir flagFile hours with
    | .error e => .error e
    | .ok data =>
      match collect_metrics now dir flagFile 24 with
      | .error e => .error e
      | .ok data24 =>
        .ok { window_total := data.total,
              total_last_24h := data24.total,
              by_user := data.by_user,
              endpoint_top := mostCommon 50 data.by_endpoint,
              by_repo := data.by_repo,
              by_service := data.by_service,
              by_ip := data.by_ip,
              by_hour := data.by_hour,
              by_status := data.by_status,
              custom_flags := data.custom_flags }

/-! Concrete inputs used by the witnesses below: a two-line archive for
2024-01-01 observed at 2024-01-02 00:30:00. -/

/-- A well-formed access-log line at 2024-01-01 23:59:59. -/
def exLine : List Char :=
  ("10.0.0.1 - alice [01/Jan/2024:23:59:59 +0000] \"GET /repository/maven-releases/foo HTTP/1.1\" 200 1234").data

/-- A well-formed access-log line at 2024-01-01 22:45:00. -/
def exLine2 : List Char :=
  ("10.0.0.2 - bob [01/Jan/2024:22:45:00 +0000] \"GET /service/rest/foo HTTP/1.1\" 404 7").data

/-- Day ordinal of 2024-01-01. -/
def exDay : Int := daysFromCivil 2024 1 1

/-- The observation clock: 2024-01-02 00:30:00. -/
def exNow : Int := daysFromCivil 2024 1 2 * 86400 + 1800

/-- A log directory whose only file is the 2024-01-01 archive holding the
two lines above. -/
def exDir : LogDir :=
  { gz := fun _ => none,
    log := fun d => if d = exDay then some [exLine, exLine2] else none,
    live := none }

/-- A line that is nothing but its timestamp: it matches the window filter
yet splits into a single whitespace token. -/
def badLine : List Char := ("[01/Jan/2024:00:30:00").data

/-- A clock half an hour past `badLine`'s timestamp: 2024-01-01 01:00:00. -/
def badNow : Int := daysFromCivil 2024 1 1 * 86400 + 3600

/-- A log directory whose only file holds just `badLine`. -/
def badDir : LogDir :=
  { gz := fun _ => none,
    log := fun d => if d = exDay then some [badLine] else none,
    live := none }

/-- The aggregation of the 1h window at `exNow` over `exDir`: only
`exLine` qualifies. -/
def exAgg1 : AggState :=
  { total := 1,
    by_user := [(("alice").data, 1)],
    by_endpoint := [(("/repository/maven-releases/foo").data, 1)],
    by_repo := [(("/repository/maven-releases").data, 1)],
    by_service := [],
    by_ip := [(("10.0.0.1").data, 1)],
    by_hour := [(("23").data, 1)],
    by_status := [(("200").data, 1)],
    custom_flags := [] }

/-- The aggregation of the 2h (or 24h) window at `exNow` over `exDir`:
both lines qualify. -/
def exAgg2 : AggState :=
  { total := 2,
    by_user := [(("alice").data, 1), (("bob").data, 1)],
    by_endpoint := [(("/repository/maven-releases/foo").data, 1), (("/service/rest/foo").data, 1)],
    by_repo := [(("/repository/maven-releases").data, 1)],
    by_service := [(("/service/rest").data, 1)],
    by_ip := [(("10.0.0.1").data, 1), (("10.0.0.2").data, 1)],
    by_hour := [(("23").data, 1), (("22").data, 1)],
    by_status := [(("200").data, 1), (("404").data, 1)],
    custom_flags := [] }

/-- The export of window 1h at `exNow` over `exDir`. -/
def exExport : ExportData :=
  { window_total := 1,
    total_last_24h := 2,
    by_user := [(("alice").data, 1)],
    endpoint_top := [(("/repository/maven-releases/foo").data, 1)],
    by_repo := [(("/repository/maven-releases").data, 1)],
    by_service := [],
    by_ip := [(("10.0.0.1").data, 1)],
    by_hour := [(("23").data, 1)],
    by_status := [(("200").data, 1)],
    custom_flags := [] }

/-- How many lines of one optional file pass the window filter. -/
def fileKept (c : Int) : Option (List (List Char)) → Nat
  | none => 0
  | some ls => (ls.filter (keepLine c)).length

/-- How many lines of one date's two candidate archives pass the filter. -/
def dateKept (c : Int) (dir : LogDir) (d : Int) : Nat :=
  fileKept c (dir.gz d) + fileKept c (dir.log d)

/-- A three-token line: source IP, user, and the timestamp fragment. -/
def wLine : List Char := ("7.7.7.7 - [01/Jan/2024:10:00:00").data

/-- The datetime 2024-01-01 10:00:00 that `wLine` carries. -/
def wT : Int := daysFromCivil 2024 1 1 * 86400 + 36000

/-! ## Lemmas about the counters -/

theorem cSum_cInc (c : Counter) (k : List Char) : cSum (cInc c k) = cSum c + 1 := by
  induction c with
  | nil => simp [cInc, cSum]
  | cons p rest ih =>
    obtain ⟨k2, n⟩ := p
    by_cases h : k2 = k
    · simp [cInc, h, cSum]; omega
    · simp only [cInc, if_neg h, cSum, List.map_cons, List.sum_cons] at ih ⊢
      omega

theorem cGet_cInc (c : Counter) (k : List Char) : cGet (cInc c k) k = cGet c k + 1 := by
  induction c with
  | nil => simp [cInc, cGet]
  | cons p rest ih =>
    obtain ⟨k2, n⟩ := p
    by_cases h : k2 = k <;> simp [cInc, cGet, h, ih]

theorem tryEndpoint_fst_le (ep rp sv : Counter) (l : List Char) :
    cSum (tryEndpoint ep rp sv l).1 ≤ cSum ep + 1 := by
  unfold tryEndpoint
  split
  · simp
  · split
    · simp [cSum_cInc]
    · simp

/-! ## Lemmas about the per-line body -/

theorem processLine_ok_spec (flags : List (List Char)) (st : AggState) (l : List Char)
    (st2 : AggState) (h : processLine flags st l = .ok st2) :
    ∃ ip user ts,
      (splitWs l)[0]? = some ip ∧ (splitWs l)[2]? = some user ∧
      parse_line_time l = .ok ts ∧
      st2.total = st.total + 1 ∧
      st2.by_ip = cInc st.by_ip ip ∧
      st2.by_user = cInc st.by_user user ∧
      st2.by_status = cInc st.by_status
        (match (splitWs l)[8]? with | some s => s | none => []) ∧
      st2.by_endpoint = (tryEndpoint st.by_endpoint st.by_repo st.by_service l).1 ∧
      st2.by_repo = (tryEndpoint st.by_endpoint st.by_repo st.by_service l).2.1 ∧
      st2.by_service = (tryEndpoint st.by_endpoint st.by_repo st.by_service l).2.2 ∧
      st2.by_hour = (match ts with
        | some t => cInc st.by_hour (fmt2 (hourOf t))
        | none => st.by_hour) ∧
      st2.custom_flags = applyFlags flags st.custom_flags l := by
  unfold processLine at h
  cases h0 : (splitWs l)[0]? with
  | none => rw [h0] at h; exact absurd h (by simp)
  | some ip =>
    rw [h0] at h
    cases h2 : (splitWs l)[2]? with
    | none => rw [h2] at h; exact absurd h (by simp)
    | some user =>
      rw [h2] at h
      cases hts : parse_line_time l with
      | error e => rw [hts] at h; exact absurd h (by simp)
      | ok ts =>
        rw [hts] at h
        injection h with h
        subst h
        exact ⟨ip, user, ts, rfl, rfl, rfl, rfl, rfl, rfl, rfl, rfl, rfl, rfl, rfl, rfl⟩

theorem processLine_ok_of (flags : List (List Char)) (st : AggState) (l : List Char)
    (ts : Option Int) (hts : parse_line_time l = .ok ts) (h3 : 3 ≤ (splitWs l).length) :
    ∃ st2, processLine flags st l = .ok st2 := by
  unfold processLine
  rw [List.getElem?_eq_getElem (show 0 < (splitWs l).length by omega),
    List.getElem?_eq_getElem (show 2 < (splitWs l).length by omega), hts]
  exact ⟨_, rfl⟩

theorem processLine_total (flags : List (List Char)) (st : AggState) (l : List Char)
    (st2 : AggState) (h : processLine flags st l = .ok st2) : st2.total = st.total + 1 := by
  obtain ⟨_, _, _, _, _, _, htot, _⟩ := processLine_ok_spec flags st l st2 h
  exact htot

/-! ## Invariant preservation along a full aggregation -/

theorem scanLines_inv (flags : List (List Char)) (cutoff : Int) (P : AggState → Prop)
    (step : ∀ st l t st2, parse_line_time l = .ok (some t) → cutoff ≤ t →
      processLine flags st l = .ok st2 → P st → P st2) :
    ∀ (ls : List (List Char)) (st st2 : AggState),
      scanLines flags cutoff st ls = .ok st2 → P st → P st2 := by
  intro ls
  induction ls with
  | nil =>
    intro st st2 h hP
    unfold scanLines at h
    injection h with h
    rwa [← h]
  | cons l ls ih =>
    intro st st2 h hP
    unfold scanLines at h
    cases hts : parse_line_time l with
    | error e => rw [hts] at h; exact absurd h (by simp)
    | ok ts =>
      rw [hts] at h
      dsimp only [] at h
      by_cases hk : keepTs cutoff ts = true
      · rw [if_pos hk] at h
        cases hpl : processLine flags st l with
        | error e => rw [hpl] at h; exact absurd h (by simp)
        | ok st1 =>
          rw [hpl] at h
          cases ts with
          | none => exact absurd hk (by simp [keepTs])
          | some t =>
            exact ih st1 st2 h (step st l t st1 hts (by simpa [keepTs] using hk) hpl hP)
      · rw [if_neg hk] at h
        exact ih st st2 h hP

theorem scanFile_inv (flags : List (List Char)) (cutoff : Int) (P : AggState → Prop)
    (step : ∀ st l t st2, parse_line_time l = .ok (some t) → cutoff ≤ t →
      processLine flags st l = .ok st2 → P st → P st2)
    (cont : Option (List (List Char))) (st st2 : AggState)
    (h : scanFile flags cutoff st cont = .ok st2) (hP : P st) : P st2 := by
  cases cont with
  | none => unfold scanFile at h; injection h with h; rwa [← h]
  | some ls => exact scanLines_inv flags cutoff P step ls st st2 h hP

theorem scanDate_inv (flags : List (List Char)) (cutoff : Int) (dir : LogDir)
    (P : AggState → Prop)
    (step : ∀ st l t st2, parse_line_time l = .ok (some t) → cutoff ≤ t →
      processLine flags st l = .ok st2 → P st → P st2)
    (st : AggState) (d : Int) (st2 : AggState)
    (h : scanDate flags cutoff dir st d = .ok st2) (hP : P st) : P st2 := by
  unfold scanDate at h
  cases h1 : scanFile flags cutoff st (dir.gz d) with
  | error e => rw [h1] at h; exact absurd h (by simp)
  | ok st1 =>
    rw [h1] at h
    exact scanFile_inv flags cutoff P step (dir.log d) st1 st2 h
      (scanFile_inv flags cutoff P step (dir.gz d) st st1 h1 hP)

theorem foldDates_inv (flags : List (List Char)) (cutoff : Int) (dir : LogDir)
    (P : AggState → Prop)
    (step : ∀ st l t st2, parse_line_time l = .ok (some t) → cutoff ≤ t →
      processLine flags st l = .ok st2 → P st → P st2) :
    ∀ (ds : List Int) (st st2 : AggState),
      List.foldlM (scanDate flags cutoff dir) st ds = .ok st2 → P st → P st2 := by
  intro ds
  induction ds with
  | nil =>
    intro st st2 h hP
    simp only [List.foldlM_nil] at h
    injection h with h
    rwa [← h]
  | cons d ds ih =>
    intro st st2 h hP
    simp only [List.foldlM_cons] at h
    cases hd : scanDate flags cutoff dir st d with
    | error e => rw [hd] at h; exact absurd h (by simp [Bind.bind, Except.bind])
    | ok st1 =>
      rw [hd] at h
      simp only [Bind.bind, Except.bind] at h
      exact ih st1 st2 h (scanDate_inv flags cutoff dir P step st d st1 hd hP)

theorem collect_inv (now : Int) (dir : LogDir) (flagFile : Option (List (List Char)))
    (W : Nat) (P : AggState → Prop)
    (step : ∀ flags c st l t st2, parse_line_time l = .ok (some t) → c ≤ t →
      processLine flags st l = .ok st2 → P st → P st2)
    (hinit : P initState) (r : AggState)
    (h : collect_metrics now dir flagFile W = .ok r) : P r := by
  unfold collect_metrics at h
  cases hf : List.foldlM (scanDate (loadFlags flagFile) (now - (W : Int) * 3600) dir)
      initState (dateRange ((now - (W : Int) * 3600) / 86400) (now / 86400)) with
  | error e => rw [hf] at h; exact absurd h (by simp)
  | ok st1 =>
    rw [hf] at h
    exact scanFile_inv (loadFlags flagFile) (now - (W : Int) * 3600) P
      (step (loadFlags flagFile) (now - (W : Int) * 3600)) dir.live st1 r h
      (foldDates_inv (loadFlags flagFile) (now - (W : Int) * 3600) dir P
        (step (loadFlags flagFile) (now - (W : Int) * 3600)) _ initState st1 hf hinit)

/-! ## The total as a sum over scanned files -/

theorem scanLines_total (flags : List (List Char)) (cutoff : Int) :
    ∀ (ls : List (List Char)) (st st2 : AggState),
      scanLines flags cutoff st ls = .ok st2 →
      st2.total = st.total + (ls.filter (keepLine cutoff)).length := by
  intro ls
  induction ls with
  | nil =>
    intro st st2 h
    unfold scanLines at h
    injection h with h
    rw [← h]
    simp
  | cons l ls ih =>
    intro st st2 h
    unfold scanLines at h
    cases hts : parse_line_time l with
    | error e => rw [hts] at h; exact absurd h (by simp)
    | ok ts =>
      rw [hts] at h
      dsimp only [] at h
      have hkl : keepLine cutoff l = keepTs cutoff ts := by
        unfold keepLine
        rw [hts]
      by_cases hk : keepTs cutoff ts = true
      · rw [if_pos hk] at h
        cases hpl : processLine flags st l with
        | error e => rw [hpl] at h; exact absurd h (by simp)
        | ok st1 =>
          rw [hpl] at h
          rw [List.filter_cons_of_pos (by rw [hkl]; exact hk), List.length_cons]
          rw [ih st1 st2 h, processLine_total flags st l st1 hpl]
          omega
      · rw [if_neg hk] at h
        rw [List.filter_cons_of_neg (by rw [hkl]; exact hk)]
        exact ih st st2 h

theorem scanFile_total (flags : List (List Char)) (cutoff : Int)
    (cont : Option (List (List Char))) (st st2 : AggState)
    (h : scanFile flags cutoff st cont = .ok st2) :
    st2.total = st.total + fileKept cutoff cont := by
  cases cont with
  | none =>
    unfold scanFile at h
    injection h with h
    rw [← h]
    simp [fileKept]
  | some ls => exact scanLines_total flags cutoff ls st st2 h

theorem scanDate_total (flags : List (List Char)) (cutoff : Int) (dir : LogDir)
    (st : AggState) (d : Int) (st2 : AggState)
    (h : scanDate flags cutoff dir st d = .ok st2) :
    st2.total = st.total + dateKept cutoff dir d := by
  unfold scanDate at h
  cases h1 : scanFile flags cutoff st (dir.gz d) with
  | error e => rw [h1] at h; exact absurd h (by simp)
  | ok st1 =>
    rw [h1] at h
    rw [scanFile_total flags cutoff (dir.log d) st1 st2 h,
      scanFile_total flags cutoff (dir.gz d) st st1 h1]
    unfold dateKept
    omega

theorem foldDates_total (flags : List (List Char)) (cutoff : Int) (dir : LogDir) :
    ∀ (ds : List Int) (st st2 : AggState),
      List.foldlM (scanDate flags cutoff dir) st ds = .ok st2 →
      st2.total = st.total + (ds.map (dateKept cutoff dir)).sum := by
  intro ds
  induction ds with
  | nil =>
    intro st st2 h
    simp only [List.foldlM_nil] at h
    injection h with h
    rw [← h]
    simp
  | cons d ds ih =>
    intro st st2 h
    simp only [List.foldlM_cons] at h
    cases hd : scanDate flags cutoff dir st d with
    | error e => rw [hd] at h; exact absurd h (by simp [Bind.bind, Except.bind])
    | ok st1 =>
      rw [hd] at h
      simp only [Bind.bind, Except.bind] at h
      rw [ih st1 st2 h, scanDate_total flags cutoff dir st d st1 hd]
      simp [List.map_cons, List.sum_cons]
      omega

theorem collect_total_eq (now : Int) (dir : LogDir) (flagFile : Option (List (List Char)))
    (W : Nat) (r : AggState) (h : collect_metrics now dir flagFile W = .ok r) :
    r.total =
      ((dateRange ((now - (W : Int) * 3600) / 86400) (now / 86400)).map
        (dateKept (now - (W : Int) * 3600) dir)).sum +
      fileKept (now - (W : Int) * 3600) dir.live := by
  unfold collect_metrics at h
  cases hf : List.foldlM (scanDate (loadFlags flagFile) (now - (W : Int) * 3600) dir)
      initState (dateRange ((now - (W : Int) * 3600) / 86400) (now / 86400)) with
  | error e => rw [hf] at h; exact absurd h (by simp)
  | ok st1 =>
    rw [hf] at h
    have h1 := foldDates_total (loadFlags flagFile) (now - (W : Int) * 3600) dir _ initState st1 hf
    have h2 := scanFile_total (loadFlags flagFile) (now - (W : Int) * 3600) dir.live st1 r h
    simp [initState] at h1
    omega

/-! ## Monotonicity of the window filter -/

theorem keepLine_mono (c1 c2 : Int) (hc : c2 ≤ c1) (l : List Char)
    (h : keepLine c1 l = true) : keepLine c2 l = true := by
  unfold keepLine at h ⊢
  cases hts : parse_line_time l with
  | error e => rw [hts] at h; exact absurd h (by simp)
  | ok ts =>
    rw [hts] at h
    cases ts with
    | none => exact absurd h (by simp [keepTs])
    | some t =>
      simp only [keepTs, decide_eq_true_eq] at h ⊢
      omega

theorem filter_length_mono {α : Type} (p q : α → Bool)
    (hpq : ∀ a, p a = true → q a = true) :
    ∀ l : List α, (l.filter p).length ≤ (l.filter q).length := by
  intro l
  induction l with
  | nil => simp
  | cons a l ih =>
    by_cases hp : p a = true
    · rw [List.filter_cons_of_pos hp, List.filter_cons_of_pos (hpq a hp)]
      simpa using ih
    · rw [List.filter_cons_of_neg (by simpa using hp)]
      by_cases hq : q a = true
      · rw [List.filter_cons_of_pos hq, List.length_cons]
        omega
      · rw [List.filter_cons_of_neg (by simpa using hq)]
        exact ih

theorem fileKept_mono (c1 c2 : Int) (hc : c2 ≤ c1) (cont : Option (List (List Char))) :
    fileKept c1 cont ≤ fileKept c2 cont := by
  cases cont with
  | none => simp [fileKept]
  | some ls =>
    exact filter_length_mono (keepLine c1) (keepLine c2)
      (fun l => keepLine_mono c1 c2 hc l) ls

theorem dateKept_mono (c1 c2 : Int) (hc : c2 ≤ c1) (dir : LogDir) (d : Int) :
    dateKept c1 dir d ≤ dateKept c2 dir d := by
  unfold dateKept
  have := fileKept_mono c1 c2 hc (dir.gz d)
  have := fileKept_mono c1 c2 hc (dir.log d)
  omega

theorem dateRange_append (lo mid hi : Int) (h1 : lo ≤ mid) (h2 : mid ≤ hi + 1) :
    dateRange lo hi = dateRange lo (mid - 1) ++ dateRange mid hi := by
  unfold dateRange
  have ha : (mid - 1 - lo + 1).toNat = (mid - lo).toNat := by omega
  have hn : (hi - lo + 1).toNat = (mid - lo).toNat + (hi - mid + 1).toNat := by omega
  rw [ha, hn, List.range_add, List.map_append, List.map_map]
  congr 1
  apply List.map_congr_left
  intro i _
  simp only [Function.comp_apply]
  push_cast
  omega

/-! ## The claims -/

/-- C4: every aggregation result returned by collect_metrics satisfies
sum(by_status.values()) = total, sum(by_user.values()) = total and
sum(by_ip.values()) = total, while sum(by_endpoint.values()) <= total: the
three fixed-position counters are bumped exactly once per counted line,
and a counted line whose quoted request fails to parse contributes to
total but not to by_endpoint. -/
theorem collect_counter_sums (now : Int) (dir : LogDir) (ff : Option (List (List Char)))
    (W : Nat) (r : AggState) (h : collect_metrics now dir ff W = .ok r) :
    cSum r.by_status = r.total ∧ cSum r.by_user = r.total ∧ cSum r.by_ip = r.total ∧
      cSum r.by_endpoint ≤ r.total := by
  refine collect_inv now dir ff W
    (fun st => cSum st.by_status = st.total ∧ cSum st.by_user = st.total ∧
      cSum st.by_ip = st.total ∧ cSum st.by_endpoint ≤ st.total) ?_ ?_ r h
  · intro flags c st l t st2 hts hct hpl hP
    obtain ⟨ip, user, ts, hg0, hg2, hpt, htot, hip, huser, hstat, hep, hrepo, hsvc, hhour, hcf⟩ :=
      processLine_ok_spec flags st l st2 hpl
    obtain ⟨p1, p2, p3, p4⟩ := hP
    refine ⟨?_, ?_, ?_, ?_⟩
    · rw [hstat, cSum_cInc, htot, p1]
    · rw [huser, cSum_cInc, htot, p2]
    · rw [hip, cSum_cInc, htot, p3]
    · rw [hep, htot]
      have := tryEndpoint_fst_le st.by_endpoint st.by_repo st.by_service l
      omega
  · exact ⟨rfl, rfl, rfl, by simp [initState, cSum]⟩

/-- C4 witness: the 1h aggregation of the concrete scenario satisfies the
sum laws. -/
theorem collect_counter_sums_w :
    cSum exAgg1.by_status = exAgg1.total ∧ cSum exAgg1.by_user = exAgg1.total ∧
      cSum exAgg1.by_ip = exAgg1.total ∧ cSum exAgg1.by_endpoint ≤ exAgg1.total :=
  collect_counter_sums exNow exDir none 1 exAgg1 (by decide)

/-- C9: every aggregation result returned by collect_metrics satisfies
sum(by_hour.values()) = total: a counted line passed the window filter, so
re-running parse_line_time on it deterministically yields the same present
timestamp and the guarded hour increment fires exactly once per counted
line. -/
theorem collect_by_hour_sum (now : Int) (dir : LogDir) (ff : Option (List (List Char)))
    (W : Nat) (r : AggState) (h : collect_metrics now dir ff W = .ok r) :
    cSum r.by_hour = r.total := by
  refine collect_inv now dir ff W (fun st => cSum st.by_hour = st.total) ?_ rfl r h
  intro flags c st l t st2 hts hct hpl hP
  obtain ⟨ip, user, ts, hg0, hg2, hpt, htot, hip, huser, hstat, hep, hrepo, hsvc, hhour, hcf⟩ :=
    processLine_ok_spec flags st l st2 hpl
  rw [hts] at hpt
  injection hpt with hpt
  subst hpt
  dsimp only [] at hhour
  rw [hhour, cSum_cInc, htot, hP]

/-- C9 witness: the 1h aggregation of the concrete scenario has its
by-hour counts summing to its total. -/
theorem collect_by_hour_sum_w : cSum exAgg1.by_hour = exAgg1.total :=
  collect_by_hour_sum exNow exDir none 1 exAgg1 (by decide)

/-- C6: under the same clock and the same directory contents, a wider
window never collects a smaller total: for W1 < W2, any two successful
aggregations satisfy collect(W1).total <= collect(W2).total. -/
theorem collect_total_monotone (now : Int) (dir : LogDir) (ff : Option (List (List Char)))
    (W1 W2 : Nat) (hW : W1 < W2) (r1 r2 : AggState)
    (h1 : collect_metrics now dir ff W1 = .ok r1)
    (h2 : collect_metrics now dir ff W2 = .ok r2) :
    r1.total ≤ r2.total := by
  have e1 := collect_total_eq now dir ff W1 r1 h1
  have e2 := collect_total_eq now dir ff W2 r2 h2
  have hc : now - (W2 : Int) * 3600 ≤ now - (W1 : Int) * 3600 := by omega
  have hlo : (now - (W2 : Int) * 3600) / 86400 ≤ (now - (W1 : Int) * 3600) / 86400 :=
    Int.ediv_le_ediv (by norm_num) hc
  have hhi : (now - (W1 : Int) * 3600) / 86400 ≤ now / 86400 :=
    Int.ediv_le_ediv (by norm_num) (by omega)
  rw [dateRange_append ((now - (W2 : Int) * 3600) / 86400)
      ((now - (W1 : Int) * 3600) / 86400) (now / 86400) hlo (by omega),
    List.map_append, List.sum_append] at e2
  have hsum : ((dateRange ((now - (W1 : Int) * 3600) / 86400) (now / 86400)).map
      (dateKept (now - (W1 : Int) * 3600) dir)).sum ≤
      ((dateRange ((now - (W1 : Int) * 3600) / 86400) (now / 86400)).map
        (dateKept (now - (W2 : Int) * 3600) dir)).sum :=
    List.sum_le_sum (fun d _ => dateKept_mono _ _ hc dir d)
  have hlive := fileKept_mono _ _ hc dir.live
  omega

/-- C6 witness: in the concrete scenario the 1h window counts one line and
the 2h window counts two, and the theorem applies. -/
theorem collect_total_monotone_w : exAgg1.total ≤ exAgg2.total :=
  collect_total_monotone exNow exDir none 1 2 (by decide) exAgg1 exAgg2
    (by decide) (by decide)

/-- C5: the window filter of iter_log_file is exact on a successful scan:
a line of the file whose extracted timestamp is present and at or after
cutoff (equality included) is yielded, a line whose timestamp is strictly
before cutoff is never yielded even though it is textually present, and
every yielded line is a line of the file with a present timestamp at or
after cutoff. -/
theorem iter_window_filter (lines : List (List Char)) (cutoff : Int)
    (out : List (List Char)) (h : iter_log_file lines cutoff = .ok out) :
    (∀ l t, l ∈ lines → parse_line_time l = .ok (some t) → cutoff ≤ t → l ∈ out) ∧
    (∀ l t, parse_line_time l = .ok (some t) → t < cutoff → l ∉ out) ∧
    (∀ l, l ∈ out → l ∈ lines ∧ ∃ t, parse_line_time l = .ok (some t) ∧ cutoff ≤ t) := by
  induction lines generalizing out with
  | nil =>
    unfold iter_log_file at h
    injection h with h
    subst h
    exact ⟨by simp, by simp, by simp⟩
  | cons l0 ls ih =>
    unfold iter_log_file at h
    cases hts : parse_line_time l0 with
    | error e => rw [hts] at h; exact absurd h (by simp)
    | ok ts =>
      rw [hts] at h
      dsimp only [] at h
      cases hrest : iter_log_file ls cutoff with
      | error e => rw [hrest] at h; exact absurd h (by simp)
      | ok rest =>
        rw [hrest] at h
        dsimp only [] at h
        obtain ⟨ih1, ih2, ih3⟩ := ih rest hrest
        by_cases hk : keepTs cutoff ts = true
        · rw [if_pos hk] at h
          injection h with h
          subst h
          obtain ⟨t0, ht0⟩ : ∃ t0, ts = some t0 := by
            cases ts with
            | none => exact absurd hk (by simp [keepTs])
            | some t0 => exact ⟨t0, rfl⟩
          subst ht0
          have hct0 : cutoff ≤ t0 := by simpa [keepTs] using hk
          refine ⟨?_, ?_, ?_⟩
          · intro l t hl hp hc
            rcases List.mem_cons.mp hl with h1 | h1
            · subst h1; exact List.mem_cons_self _ _
            · exact List.mem_cons_of_mem _ (ih1 l t h1 hp hc)
          · intro l t hp hlt hmem
            rcases List.mem_cons.mp hmem with h1 | h1
            · subst h1
              rw [hts] at hp
              injection hp with hp
              injection hp with hp
              omega
            · exact ih2 l t hp hlt h1
          · intro l hl
            rcases List.mem_cons.mp hl with h1 | h1
            · subst h1
              exact ⟨List.mem_cons_self _ _, t0, hts, hct0⟩
            · obtain ⟨hmem, t, hp, hc⟩ := ih3 l h1
              exact ⟨List.mem_cons_of_mem _ hmem, t, hp, hc⟩
        · rw [if_neg hk] at h
          injection h with h
          subst h
          refine ⟨?_, ?_, ?_⟩
          · intro l t hl hp hc
            rcases List.mem_cons.mp hl with h1 | h1
            · subst h1
              rw [hts] at hp
              injection hp with hp
              subst hp
              exact absurd (show keepTs cutoff (some t) = true by
                simp [keepTs, hc]) hk
            · exact ih1 l t h1 hp hc
          · exact ih2
          · intro l hl
            obtain ⟨hmem, t, hp, hc⟩ := ih3 l hl
            exact ⟨List.mem_cons_of_mem _ hmem, t, hp, hc⟩

/-- C5 witness: on the two-line archive observed one hour back, the filter
keeps exactly the in-window line. -/
theorem iter_window_filter_w :
    (∀ l t, l ∈ [exLine, exLine2] → parse_line_time l = .ok (some t) →
      exNow - 1 * 3600 ≤ t → l ∈ [exLine]) ∧
    (∀ l t, parse_line_time l = .ok (some t) → t < exNow - 1 * 3600 → l ∉ [exLine]) ∧
    (∀ l, l ∈ [exLine] → l ∈ [exLine, exLine2] ∧
      ∃ t, parse_line_time l = .ok (some t) ∧ exNow - 1 * 3600 ≤ t) :=
  iter_window_filter [exLine, exLine2] (exNow - 1 * 3600) [exLine] (by decide)

/-- C1 counterexample: `badLine` passes the window filter, yet the
per-line body raises IndexError on parts[2] (the line has a single
whitespace token), and the whole aggregation over a directory containing
it aborts with that error instead of counting the line: extraction of the
fixed-position fields can fail a counted line. -/
theorem one_token_line_aborts_collect :
    keepLine (badNow - 1 * 3600) badLine = true ∧
    processLine [] initState badLine = .error .indexError ∧
    collect_metrics badNow badDir none 1 = .error .indexError := by decide

/-- C1 (amended): for a line that passes the window filter AND splits into
at least 3 whitespace tokens, the positional extractions never fail: the
line is counted in total, by_ip (token 0) and by_user (token 2), and when
it has fewer than 9 tokens the status code recorded is the empty string.
A filtered-in line with fewer than 3 tokens instead raises an uncaught
IndexError that aborts the aggregation (the counterexample above). -/
theorem counted_line_fixed_fields (flags : List (List Char)) (st : AggState)
    (l : List Char) (t : Int) (hts : parse_line_time l = .ok (some t))
    (h3 : 3 ≤ (splitWs l).length) :
    ∃ ip user st2, (splitWs l)[0]? = some ip ∧ (splitWs l)[2]? = some user ∧
      processLine flags st l = .ok st2 ∧ st2.total = st.total + 1 ∧
      st2.by_ip = cInc st.by_ip ip ∧ st2.by_user = cInc st.by_user user ∧
      ((splitWs l).length < 9 → st2.by_status = cInc st.by_status []) := by
  obtain ⟨st2, hpl⟩ := processLine_ok_of flags st l (some t) hts h3
  obtain ⟨ip, user, ts, hg0, hg2, hpt, htot, hip, huser, hstat, _, _, _, _, _⟩ :=
    processLine_ok_spec flags st l st2 hpl
  refine ⟨ip, user, st2, hg0, hg2, hpl, htot, hip, huser, fun h9 => ?_⟩
  rw [hstat, List.getElem?_eq_none (show (splitWs l).length ≤ 8 by omega)]

/-- C1 witness: the three-token line `wLine` is processed without error,
counted once, and its status code is recorded as the empty string. -/
theorem counted_line_fixed_fields_w :
    ∃ ip user st2, (splitWs wLine)[0]? = some ip ∧ (splitWs wLine)[2]? = some user ∧
      processLine [] initState wLine = .ok st2 ∧ st2.total = initState.total + 1 ∧
      st2.by_ip = cInc initState.by_ip ip ∧ st2.by_user = cInc initState.by_user user ∧
      ((splitWs wLine).length < 9 → st2.by_status = cInc initState.by_status []) :=
  counted_line_fixed_fields [] initState wLine wT (by decide) (by decide)

/-- C10: a counted line with at least 3 but fewer than 9 whitespace tokens
records the empty string as its status-code key: by_status is incremented
at the key "" rather than the line being omitted, so the exported
status-code breakdown (emitted in full) can carry an empty-string label. -/
theorem short_line_empty_status (flags : List (List Char)) (st : AggState)
    (l : List Char) (t : Int) (hts : parse_line_time l = .ok (some t))
    (h3 : 3 ≤ (splitWs l).length) (h9 : (splitWs l).length < 9) :
    ∃ st2, processLine flags st l = .ok st2 ∧
      st2.by_status = cInc st.by_status [] ∧
      cGet st2.by_status [] = cGet st.by_status [] + 1 := by
  obtain ⟨st2, hpl⟩ := processLine_ok_of flags st l (some t) hts h3
  obtain ⟨ip, user, ts, hg0, hg2, hpt, htot, hip, huser, hstat, _, _, _, _, _⟩ :=
    processLine_ok_spec flags st l st2 hpl
  have he : st2.by_status = cInc st.by_status [] := by
    rw [hstat, List.getElem?_eq_none (show (splitWs l).length ≤ 8 by omega)]
  exact ⟨st2, hpl, he, by rw [he, cGet_cInc]⟩

/-- C10 witness: processing the three-token line `wLine` bumps by_status
at the empty-string key. -/
theorem short_line_empty_status_w :
    ∃ st2, processLine [] initState wLine = .ok st2 ∧
      st2.by_status = cInc initState.by_status [] ∧
      cGet st2.by_status [] = cGet initState.by_status [] + 1 :=
  short_line_empty_status [] initState wLine wT (by decide) (by decide) (by decide)

/-- C2: the claim is half right: a line with no fragment matching the
timestamp pattern yields absence without error, but a matching fragment
whose three-letter month is not one of the twelve month names makes
MONTHS[mon] raise KeyError, which escapes parse_line_time (contradicting
its own docstring "or return None") and fails the iter_log_file scan. -/
theorem parse_line_time_bad_month_raises :
    parse_line_time (("[01/Foo/2024:08:00:00 GET /x").data) = .error .keyError ∧
    parse_line_time (("no timestamp in this line").data) = .ok none ∧
    iter_log_file [("[01/Foo/2024:08:00:00 GET /x").data] 0 = .error .keyError := by
  decide

/-- C3: the claim fails for uppercase H: export_metrics computes
int(window.rstrip of the single character lowercase h), so a window such
as 1H (accepted by the route validation regex) reaches int() with its H
still attached and raises ValueError before any collection; lowercase
windows parse as claimed. -/
theorem export_uppercase_H_raises (now : Int) (dir : LogDir)
    (ff : Option (List (List Char))) :
    export_metrics now dir ff (("1H").data) = .error .valueError ∧
    parseWindow (("1h").data) = .ok 1 ∧
    parseWindow (("24h").data) = .ok 24 :=
  ⟨rfl, by decide, by decide⟩

theorem mostCommon_spec (n : Nat) (c : Counter) :
    (mostCommon n c).length ≤ n ∧
    ∃ dropped, List.Perm (mostCommon n c ++ dropped) c ∧
      ∀ p ∈ mostCommon n c, ∀ q ∈ dropped, q.2 ≤ p.2 := by
  constructor
  · unfold mostCommon
    exact List.length_take_le n (List.insertionSort cntGE c)
  · refine ⟨(List.insertionSort cntGE c).drop n, ?_, ?_⟩
    · unfold mostCommon
      rw [List.take_append_drop]
      exact List.perm_insertionSort cntGE c
    · have hp2 : List.Pairwise cntGE
          ((List.insertionSort cntGE c).take n ++ (List.insertionSort cntGE c).drop n) := by
        rw [List.take_append_drop]
        exact List.sorted_insertionSort cntGE c
      intro p hp q hq
      exact (List.pairwise_append.mp hp2).2.2 p hp q hq

/-- C7: on every successful export the serialized by-endpoint breakdown
has at most 50 entries whatever the number of distinct endpoints, and the
exposed entries are the highest-count ones (every exposed count is at
least every dropped count), while every other breakdown of the requested
window's aggregation is exposed in full. -/
theorem export_endpoint_top50 (now : Int) (dir : LogDir) (ff : Option (List (List Char)))
    (w : List Char) (e : ExportData) (h : export_metrics now dir ff w = .ok e) :
    e.endpoint_top.length ≤ 50 ∧
    ∃ hours data, parseWindow w = .ok hours ∧
      collect_metrics now dir ff hours = .ok data ∧
      e.by_user = data.by_user ∧ e.by_repo = data.by_repo ∧
      e.by_service = data.by_service ∧ e.by_ip = data.by_ip ∧
      e.by_hour = data.by_hour ∧ e.by_status = data.by_status ∧
      e.custom_flags = data.custom_flags ∧
      ∃ dropped, List.Perm (e.endpoint_top ++ dropped) data.by_endpoint ∧
        ∀ p ∈ e.endpoint_top, ∀ q ∈ dropped, q.2 ≤ p.2 := by
  unfold export_metrics at h
  cases hpw : parseWindow w with
  | error e2 => rw [hpw] at h; exact absurd h (by simp)
  | ok hours =>
    rw [hpw] at h
    dsimp only [] at h
    cases hcd : collect_metrics now dir ff hours with
    | error e2 => rw [hcd] at h; exact absurd h (by simp)
    | ok data =>
      rw [hcd] at h
      dsimp only [] at h
      cases hcd24 : collect_metrics now dir ff 24 with
      | error e2 => rw [hcd24] at h; exact absurd h (by simp)
      | ok data24 =>
        rw [hcd24] at h
        dsimp only [] at h
        injection h with h
        subst h
        obtain ⟨hlen, dropped, hperm, htop⟩ := mostCommon_spec 50 data.by_endpoint
        exact ⟨hlen, hours, data, rfl, hcd, rfl, rfl, rfl, rfl, rfl, rfl, rfl,
          dropped, hperm, htop⟩

/-- C7 witness: the concrete 1h export exposes one endpoint entry, within
the 50-entry cap, and every other breakdown in full. -/
theorem export_endpoint_top50_w :
    exExport.endpoint_top.length ≤ 50 ∧
    ∃ hours data, parseWindow (("1h").data) = .ok hours ∧
      collect_metrics exNow exDir none hours = .ok data ∧
      exExport.by_user = data.by_user ∧ exExport.by_repo = data.by_repo ∧
      exExport.by_service = data.by_service ∧ exExport.by_ip = data.by_ip ∧
      exExport.by_hour = data.by_hour ∧ exExport.by_status = data.by_status ∧
      exExport.custom_flags = data.custom_flags ∧
      ∃ dropped, List.Perm (exExport.endpoint_top ++ dropped) data.by_endpoint ∧
        ∀ p ∈ exExport.endpoint_top, ∀ q ∈ dropped, q.2 ≤ p.2 :=
  export_endpoint_top50 exNow exDir none (("1h").data) exExport (by decide)

/-- C8: every successful export, whatever its requested window, has also
performed the unconditional second aggregation collect_metrics(24), and
the exported fixed last-24h baseline is exactly that aggregation's total
(only its total is used), alongside the requested window's results. -/
theorem export_unconditional_24h (now : Int) (dir : LogDir) (ff : Option (List (List Char)))
    (w : List Char) (e : ExportData) (h : export_metrics now dir ff w = .ok e) :
    ∃ data24, collect_metrics now dir ff 24 = .ok data24 ∧
      e.total_last_24h = data24.total ∧
      ∃ hours data, parseWindow w = .ok hours ∧
        collect_metrics now dir ff hours = .ok data ∧
        e.window_total = data.total := by
  unfold export_metrics at h
  cases hpw : parseWindow w with
  | error e2 => rw [hpw] at h; exact absurd h (by simp)
  | ok hours =>
    rw [hpw] at h
    dsimp only [] at h
    cases hcd : collect_metrics now dir ff hours with
    | error e2 => rw [hcd] at h; exact absurd h (by simp)
    | ok data =>
      rw [hcd] at h
      dsimp only [] at h
      cases hcd24 : collect_metrics now dir ff 24 with
      | error e2 => rw [hcd24] at h; exact absurd h (by simp)
      | ok data24 =>
        rw [hcd24] at h
        dsimp only [] at h
        injection h with h
        subst h
        exact ⟨data24, rfl, rfl, hours, data, rfl, hcd, rfl⟩

/-- C8 witness: the concrete 1h export carries total 1 for the requested
window and the 24h baseline total 2 from the unconditional second
aggregation. -/
theorem export_unconditional_24h_w :
    ∃ data24, collect_metrics exNow exDir none 24 = .ok data24 ∧
      exExport.total_last_24h = data24.total ∧
      ∃ hours data, parseWindow (("1h").data) = .ok hours ∧
        collect_metrics exNow exDir none hours = .ok data ∧
        exExport.window_total = data.total :=
  export_unconditional_24h exNow exDir none (("1h").data) exExport (by decide)

end NexusExporter
